import Mathlib

set_option maxRecDepth 100000

/-!
Shallow embedding of the toyeth execution core: the 256-bit word type of
`int256.py` and the stack-machine interpreter of `evm.py`.

Conventions of the embedding:

* A Python `bytes` value is a `List Nat` of its byte values (big-endian, as in
  the source).
* Python exceptions are the error side of `Except Fault _`.  The `Fault`
  constructors `haltExecution` and `invalidJumpDestination` model the exception
  classes defined in `evm.py`; `indexError`, `keyError`, `overflowError`,
  `valueError` and `typeError` model the CPython built-in exceptions that the
  source can raise (`IndexError` from list/bytes indexing and `list.pop`,
  `KeyError` from the dispatch-dict lookup, `OverflowError` from
  `int.to_bytes` on out-of-range values, `ValueError` from `Int256.__init__`
  on a byte string that is not 32 bytes long, `TypeError` from `int >> Int256`).
* The Python stack is a list appended/popped at its end; here the head of the
  `List Int256` is the top of the stack, so `append` is cons and `pop` takes
  the head.
* Machine integers are `Nat`/`Int` (Python's are unbounded), with reductions
  modulo `2 ^ 256` written out exactly where the source writes them.
-/

/-- Big-endian byte string to natural number, as CPython's
`int.from_bytes(b, "big", signed=False)`. -/
def bytesToNat (l : List Nat) : Nat :=
  l.foldl (fun a b => a * 256 + b) 0

/-- Big-endian encoding of a natural number into a fixed number of bytes:
the byte string produced by CPython's `n.to_bytes(k, "big")` for an
in-range `n`. -/
def natToBytesBE : Nat → Nat → List Nat
  | 0, _ => []
  | k + 1, n => natToBytesBE k (n / 256) ++ [n % 256]

/-- The faults the interpreter can signal.  `haltExecution` and
`invalidJumpDestination` model the exception classes defined in `evm.py`;
`indexError`, `keyError`, `overflowError`, `valueError` and `typeError` model
the CPython built-ins the source can raise.  `stackUnderflow` and
`invalidOpcode` are Modelled from the spec: the spec's fault taxonomy names
these two kinds, but no such exception class exists anywhere in the source;
they are included only so that statements can compare the spec's expected
fault kind with the fault the code actually raises. -/
inductive Fault where
  | haltExecution
  | invalidJumpDestination
  | indexError
  | keyError
  | overflowError
  | valueError
  | typeError
  | stackUnderflow
  | invalidOpcode
  deriving DecidableEq

/-- The 256-bit word of `int256.py`: a wrapper around its byte string
(`_bytes_value`). -/
structure Int256 where
  bytes_value : List Nat
  deriving DecidableEq

/-- Well-formedness invariant that `Int256.__init__` establishes for every
value the Python code can construct: exactly 32 bytes, each in `[0, 256)`. -/
def Int256.Wf (a : Int256) : Prop :=
  a.bytes_value.length = 32 ∧ ∀ b ∈ a.bytes_value, b < 256

instance (a : Int256) : Decidable a.Wf := by
  unfold Int256.Wf; infer_instance

/-- The `unsigned` property: `int.from_bytes(self._bytes_value, "big")`. -/
def Int256.unsigned (a : Int256) : Nat :=
  bytesToNat a.bytes_value

/-- The `signed` property: `int.from_bytes(self._bytes_value, "big",
signed=True)`.  CPython decides the sign by the top bit of the most
significant (first) byte and then subtracts `2 ^ (8 * length)`. -/
def Int256.signed (a : Int256) : Int :=
  (a.unsigned : Int) -
    (if 128 ≤ a.bytes_value.headD 0 then (2 : Int) ^ (8 * a.bytes_value.length) else 0)

/-- `Int256.__init__`: accepts exactly 32 bytes, otherwise raises
`ValueError`. -/
def Int256.init (b : List Nat) : Except Fault Int256 :=
  if b.length = 32 then .ok ⟨b⟩ else .error .valueError

/-- `from_int(value)`: `value.to_bytes(32, "big", signed=False)`, which raises
`OverflowError` when `value` is negative or at least `2 ^ 256`. -/
def from_int (v : Int) : Except Fault Int256 :=
  if 0 ≤ v ∧ v < 2 ^ 256 then .ok ⟨natToBytesBE 32 v.toNat⟩ else .error .overflowError

/-- `from_signed_int(value)`: `value.to_bytes(32, "big", signed=True)`, which
writes the two's-complement encoding and raises `OverflowError` when `value`
is outside `[-2 ^ 255, 2 ^ 255)`. -/
def from_signed_int (v : Int) : Except Fault Int256 :=
  if -(2 ^ 255) ≤ v ∧ v < 2 ^ 255 then
    .ok ⟨natToBytesBE 32 (v % (2 ^ 256 : Int)).toNat⟩
  else .error .overflowError

/-- `sgn(x)` from `int256.py`. -/
def sgn (x : Int) : Int :=
  if x = 0 then 0 else if x < 0 then -1 else 1

/-! ### A model of CPython float true division on integers

`Int256.sdiv` computes `sgn(self.signed / other.signed) *
int(abs(self.signed / other.signed))` where `/` is Python float (true)
division.  CPython's `int.__truediv__` returns the IEEE-754 double nearest to
the exact rational quotient, with ties broken to the even significand
(`long_true_divide` is correctly rounded).  For the operand magnitudes that
can appear here (at most `2 ^ 255`) the quotient magnitude lies in
`[2 ^ -510, 2 ^ 255]`, far inside the normal double range, so the rounded
value is `n * 2 ^ (L - 52)` with `n` the 53-bit rounding of the quotient
scaled to `[2 ^ 52, 2 ^ 53)` and `L` the floor of its base-2 logarithm.
`floatDivTruncAbs a b` composes that correctly rounded division of `a` by `b`
(both positive) with the truncation `int(abs(...))`. -/

/-- Number of binary digits of `n` (0 for 0), with structural fuel; the fuel
600 is ample for every number that can appear here (all are below
`2 ^ 512`). -/
def bitlenAux : Nat → Nat → Nat
  | 0, _ => 0
  | f + 1, n => if n = 0 then 0 else bitlenAux f (n / 2) + 1

/-- Number of binary digits of `n`. -/
def bitlen (n : Nat) : Nat :=
  bitlenAux 600 n

/-- Nearest integer to `p / q` (for `q > 0`), ties to even. -/
def roundHalfEven (p q : Nat) : Nat :=
  let d := p / q
  let r := p % q
  if 2 * r < q then d
  else if q < 2 * r then d + 1
  else if d % 2 = 0 then d else d + 1

/-- Floor of the base-2 logarithm of `a / b`, for positive `a` and `b`. -/
def floorLog2Q (a b : Nat) : Int :=
  let d : Int := (bitlen a : Int) - (bitlen b : Int)
  if b * 2 ^ d.toNat ≤ a * 2 ^ (-d).toNat then d else d - 1

/-- The value `int(abs(a / b))` where `/` is CPython float true division of
the nonnegative integer `a` by the positive integer `b`: the exact quotient
is correctly rounded to double precision (round half to even) and then
truncated toward zero. -/
def floatDivTruncAbs (a b : Nat) : Nat :=
  if a = 0 then 0
  else
    let L := floorLog2Q a b
    let n := roundHalfEven (a * 2 ^ (52 - L).toNat) (b * 2 ^ (L - 52).toNat)
    if 52 ≤ L then n * 2 ^ (L - 52).toNat else n / 2 ^ (52 - L).toNat

/-! ### Python `bytes` indexing, slicing and repetition

Used by `Int256.signextend` and `Int256.byte`, which index the byte string
with arbitrary Python integers. -/

/-- Python `b[i]` on a byte string: a negative index counts from the end
(one wrap only); anything still out of range raises `IndexError`. -/
def pyBytesIndex (l : List Nat) (i : Int) : Except Fault Nat :=
  let j := if i < 0 then i + l.length else i
  if 0 ≤ j ∧ j < l.length then .ok (l.getD j.toNat 0) else .error .indexError

/-- Python `b[start:stop]` for `stop ≥ 0`: clamps both bounds, never
fails. -/
def pySlice (l : List Nat) (start : Int) (stop : Nat) : List Nat :=
  let s := if start < 0 then ((l.length : Int) + start).toNat else start.toNat
  (l.take stop).drop s

/-- Python `bytes([b]) * n`: empty for `n ≤ 0`. -/
def pyRepeat (b : Nat) (n : Int) : List Nat :=
  List.replicate n.toNat b

/-! ### The word operations of `int256.py` -/

/-- `add`: `from_int((self.unsigned + other.unsigned) % 2**256)`. -/
def Int256.add (a b : Int256) : Except Fault Int256 :=
  from_int (((a.unsigned + b.unsigned) % 2 ^ 256 : Nat) : Int)

/-- `mul`: `from_int((self.unsigned * other.unsigned) % 2**256)`. -/
def Int256.mul (a b : Int256) : Except Fault Int256 :=
  from_int (((a.unsigned * b.unsigned) % 2 ^ 256 : Nat) : Int)

/-- `sub`: `from_int((self.unsigned - other.unsigned) % 2**256)`; the Python
subtraction can be negative and `%` is Python's nonnegative remainder, so the
difference is taken in `Int` and reduced with `emod`. -/
def Int256.sub (a b : Int256) : Except Fault Int256 :=
  from_int (((a.unsigned : Int) - (b.unsigned : Int)) % (2 ^ 256 : Int))

/-- `div`: unsigned floor division, `0` for a zero divisor. -/
def Int256.div (a b : Int256) : Except Fault Int256 :=
  if b.unsigned = 0 then from_int 0
  else from_int ((a.unsigned / b.unsigned : Nat) : Int)

/-- `sdiv`: `0` for a zero divisor; `from_signed_int(-2**255)` for
`-2**255 / -1`; otherwise
`from_signed_int(sgn(self.signed / other.signed) * int(abs(self.signed /
other.signed)))` where `/` is float division — the magnitude is
`floatDivTruncAbs` of the operand magnitudes, and the sign of the float
quotient is `sgn(self.signed) * sgn(other.signed)` (a nonzero exact quotient
here is at least `2 ^ -510` in magnitude and so never rounds to zero). -/
def Int256.sdiv (a b : Int256) : Except Fault Int256 :=
  if b.signed = 0 then from_int 0
  else if a.signed = -(2 ^ 255) ∧ b.signed = -1 then from_signed_int (-(2 ^ 255))
  else
    from_signed_int (sgn a.signed * sgn b.signed *
      (floatDivTruncAbs a.signed.natAbs b.signed.natAbs : Int))

/-- `mod`: unsigned remainder, `0` for a zero divisor. -/
def Int256.mod (a b : Int256) : Except Fault Int256 :=
  if b.unsigned = 0 then from_int 0
  else from_int ((a.unsigned % b.unsigned : Nat) : Int)

/-- `smod`: `from_signed_int(sgn(self.signed) * (abs(self.signed) %
abs(other.signed)))`, `0` for a zero divisor. -/
def Int256.smod (a b : Int256) : Except Fault Int256 :=
  if b.signed = 0 then from_int 0
  else from_signed_int (sgn a.signed * ((a.signed.natAbs % b.signed.natAbs : Nat) : Int))

/-- `addmod`: `(self.unsigned + other.unsigned) % modulo.unsigned`, `0` when
`modulo.signed == 0`. -/
def Int256.addmod (a b m : Int256) : Except Fault Int256 :=
  if m.signed = 0 then from_int 0
  else from_int (((a.unsigned + b.unsigned) % m.unsigned : Nat) : Int)

/-- `mulmod`: `(self.unsigned * other.unsigned) % modulo.unsigned`, `0` when
`modulo.signed == 0`. -/
def Int256.mulmod (a b m : Int256) : Except Fault Int256 :=
  if m.signed = 0 then from_int 0
  else from_int (((a.unsigned * b.unsigned) % m.unsigned : Nat) : Int)

/-- `exp`: `(self.unsigned ** exponent.unsigned) % 2**256`. -/
def Int256.exp (a b : Int256) : Except Fault Int256 :=
  from_int (((a.unsigned ^ b.unsigned) % 2 ^ 256 : Nat) : Int)

/-- `signextend`: reads the sign byte at Python index `31 - other.unsigned`
(which wraps once when negative and can raise `IndexError`), then rebuilds
the byte string from `31 - other.unsigned` repetitions of `0xff` or `0x00`
and the slice `[(31 - other.unsigned):32]`; the `Int256` constructor raises
`ValueError` when the rebuilt string is not 32 bytes long (which happens for
`32 ≤ other.unsigned ≤ 62`). -/
def Int256.signextend (a other : Int256) : Except Fault Int256 :=
  let idx : Int := 31 - (other.unsigned : Int)
  match pyBytesIndex a.bytes_value idx with
  | .error e => .error e
  | .ok sb =>
    if sb / 128 ≠ 0 then Int256.init (pyRepeat 0xff idx ++ pySlice a.bytes_value idx 32)
    else Int256.init (pyRepeat 0x00 idx ++ pySlice a.bytes_value idx 32)

/-- `lt`: unsigned comparison producing the word `1` or `0`. -/
def Int256.lt (a b : Int256) : Except Fault Int256 :=
  if a.unsigned < b.unsigned then from_int 1 else from_int 0

/-- `gt`: unsigned comparison producing the word `1` or `0`. -/
def Int256.gt (a b : Int256) : Except Fault Int256 :=
  if b.unsigned < a.unsigned then from_int 1 else from_int 0

/-- `slt`: signed comparison producing the word `1` or `0`. -/
def Int256.slt (a b : Int256) : Except Fault Int256 :=
  if a.signed < b.signed then from_int 1 else from_int 0

/-- `sgt`: signed comparison producing the word `1` or `0`. -/
def Int256.sgt (a b : Int256) : Except Fault Int256 :=
  if b.signed < a.signed then from_int 1 else from_int 0

/-- `eq`: byte-string equality producing the word `1` or `0`. -/
def Int256.eq (a b : Int256) : Except Fault Int256 :=
  if a.bytes_value = b.bytes_value then from_int 1 else from_int 0

/-- `iszero`. -/
def Int256.iszero (a : Int256) : Except Fault Int256 :=
  if a.unsigned = 0 then from_int 1 else from_int 0

/-- `and_`: bitwise conjunction of the unsigned values. -/
def Int256.and_ (a b : Int256) : Except Fault Int256 :=
  from_int ((Nat.land a.unsigned b.unsigned : Nat) : Int)

/-- `or_`: bitwise disjunction of the unsigned values. -/
def Int256.or_ (a b : Int256) : Except Fault Int256 :=
  from_int ((Nat.lor a.unsigned b.unsigned : Nat) : Int)

/-- `xor`: bitwise exclusive disjunction of the unsigned values. -/
def Int256.xor (a b : Int256) : Except Fault Int256 :=
  from_int ((Nat.xor a.unsigned b.unsigned : Nat) : Int)

/-- `not_`: `from_signed_int(~self.unsigned)`; Python's `~u` is `-u - 1`. -/
def Int256.not_ (a : Int256) : Except Fault Int256 :=
  from_signed_int (-(a.unsigned : Int) - 1)

/-- `byte`: `from_int(self._bytes_value[index])` for a nonnegative `index`;
`IndexError` for `index ≥ 32` (the `TODO` gap noted in the source). -/
def Int256.byte (a : Int256) (index : Nat) : Except Fault Int256 :=
  match a.bytes_value.get? index with
  | some b => from_int b
  | none => .error .indexError

/-- `shl`: `from_int((self.unsigned << shift.unsigned) % 2**256)`; `x << k`
is `x * 2 ^ k`. -/
def Int256.shl (a shift : Int256) : Except Fault Int256 :=
  from_int (((a.unsigned * 2 ^ shift.unsigned) % 2 ^ 256 : Nat) : Int)

/-- `shr` evaluates `self.unsigned >> shift` with `shift` still an `Int256`
object (the caller in `evm.py` never converts it): `int.__rshift__` returns
`NotImplemented` and `Int256` has no `__rrshift__`, so CPython raises
`TypeError` unconditionally. -/
def Int256.shr (_a _shift : Int256) : Except Fault Int256 :=
  .error .typeError

/-- `sar` evaluates `self.signed >> shift` with `shift` still an `Int256`
object, so it raises `TypeError` exactly like `shr`. -/
def Int256.sar (_a _shift : Int256) : Except Fault Int256 :=
  .error .typeError

/-! ### The machine state and instructions of `evm.py` -/

/-- The machine state `(g, pc, m, i, s)` of `evm.py`: bytecode, gas counter,
program counter, memory (a `defaultdict(int)`, modelled as a total function
that is `0` wherever nothing was written), active-words counter `i`, and the
stack (head = top). -/
structure MachineState where
  code : List Nat
  gas : Nat
  pc : Nat
  m : Nat → Nat
  i : Nat
  s : List Int256

namespace EVM

/-- `read_mem_256`: the 32 bytes at `offset`, missing entries read as `0`.
The constructed byte string always has 32 bytes, so the `Int256` constructor
check passes and the result is built directly. -/
def read_mem_256 (m : Nat → Nat) (offset : Nat) : Int256 :=
  ⟨(List.range 32).map fun x => m (offset + x)⟩

/-- `write_mem_256`: `for x, d in enumerate(bytes(value)): m[offset + x] = d`. -/
def write_mem_256 (m : Nat → Nat) (offset : Nat) (value : Int256) : Nat → Nat :=
  value.bytes_value.enum.foldl (fun acc p => Function.update acc (offset + p.1) p.2) m

/-- `write_mem_8`: `m[offset] = bytes(value)[31]` (every constructed `Int256`
has exactly 32 bytes, so index 31 is in range). -/
def write_mem_8 (m : Nat → Nat) (offset : Nat) (value : Int256) : Nat → Nat :=
  Function.update m offset (value.bytes_value.getD 31 0)

/-- `STOP` raises `HaltExecution`. -/
def stop (_st : MachineState) : Except Fault MachineState :=
  .error .haltExecution

/-- Shared shape of the two-operand handlers in `evm.py`:
`a = s.pop(); b = s.pop(); s.append(f a b); pc += 1`, where popping an
empty list raises `IndexError`. -/
def binOp (f : Int256 → Int256 → Except Fault Int256) (st : MachineState) :
    Except Fault MachineState :=
  match st.s with
  | a :: b :: rest =>
    match f a b with
    | .ok v => .ok { st with s := v :: rest, pc := st.pc + 1 }
    | .error e => .error e
  | _ => .error .indexError

/-- Shared shape of the one-operand handlers (`ISZERO`, `NOT`). -/
def unOp (f : Int256 → Except Fault Int256) (st : MachineState) :
    Except Fault MachineState :=
  match st.s with
  | a :: rest =>
    match f a with
    | .ok v => .ok { st with s := v :: rest, pc := st.pc + 1 }
    | .error e => .error e
  | _ => .error .indexError

/-- Shared shape of the three-operand handlers (`ADDMOD`, `MULMOD`). -/
def ternOp (f : Int256 → Int256 → Int256 → Except Fault Int256) (st : MachineState) :
    Except Fault MachineState :=
  match st.s with
  | a :: b :: c :: rest =>
    match f a b c with
    | .ok v => .ok { st with s := v :: rest, pc := st.pc + 1 }
    | .error e => .error e
  | _ => .error .indexError

def add : MachineState → Except Fault MachineState := binOp Int256.add

def mul : MachineState → Except Fault MachineState := binOp Int256.mul

def div : MachineState → Except Fault MachineState := binOp Int256.div

def sdiv : MachineState → Except Fault MachineState := binOp Int256.sdiv

def mod : MachineState → Except Fault MachineState := binOp Int256.mod

def smod : MachineState → Except Fault MachineState := binOp Int256.smod

def addmod : MachineState → Except Fault MachineState := ternOp Int256.addmod

def mulmod : MachineState → Except Fault MachineState := ternOp Int256.mulmod

def exp : MachineState → Except Fault MachineState := binOp Int256.exp

/-- `SIGNEXTEND` pops `size` first, `target` second, and pushes
`target.signextend(size)`. -/
def signextend : MachineState → Except Fault MachineState :=
  binOp fun size target => Int256.signextend target size

def lt : MachineState → Except Fault MachineState := binOp Int256.lt

def gt : MachineState → Except Fault MachineState := binOp Int256.gt

def slt : MachineState → Except Fault MachineState := binOp Int256.slt

def sgt : MachineState → Except Fault MachineState := binOp Int256.sgt

def eq : MachineState → Except Fault MachineState := binOp Int256.eq

def iszero : MachineState → Except Fault MachineState := unOp Int256.iszero

def and_ : MachineState → Except Fault MachineState := binOp Int256.and_

def or_ : MachineState → Except Fault MachineState := binOp Int256.or_

def xor : MachineState → Except Fault MachineState := binOp Int256.xor

def not_ : MachineState → Except Fault MachineState := unOp Int256.not_

/-- `BYTE` pops `index` (used as `.unsigned`) first, `value` second. -/
def byte : MachineState → Except Fault MachineState :=
  binOp fun index value => Int256.byte value index.unsigned

/-- `SHL` pops `shift` first, `value` second. -/
def shl : MachineState → Except Fault MachineState :=
  binOp fun shift value => Int256.shl value shift

/-- `SHR` pops `shift` first, `value` second (and then faults, see
`Int256.shr`). -/
def shr : MachineState → Except Fault MachineState :=
  binOp fun shift value => Int256.shr value shift

/-- `SAR` pops `shift` first, `value` second (and then faults, see
`Int256.sar`). -/
def sar : MachineState → Except Fault MachineState :=
  binOp fun shift value => Int256.sar value shift

/-- `POP`: `s.pop(); pc += 1`. -/
def pop (st : MachineState) : Except Fault MachineState :=
  match st.s with
  | [] => .error .indexError
  | _ :: rest => .ok { st with s := rest, pc := st.pc + 1 }

/-- `MLOAD`: reads `s[-1]` (IndexError on an empty stack), replaces it with
the 32 bytes at that offset, and grows `i` to at least `(offset + 32) // 32`. -/
def mload (st : MachineState) : Except Fault MachineState :=
  match st.s with
  | [] => .error .indexError
  | top :: rest =>
    let offset := top.unsigned
    .ok { st with s := read_mem_256 st.m offset :: rest,
                  i := max st.i ((offset + 32) / 32), pc := st.pc + 1 }

/-- `MSTORE`: pops `offset` then `value`, writes 32 bytes, and grows `i` to
at least `(offset + 32) // 32`. -/
def mstore (st : MachineState) : Except Fault MachineState :=
  match st.s with
  | offv :: value :: rest =>
    let offset := offv.unsigned
    .ok { st with m := write_mem_256 st.m offset value, s := rest,
                  i := max st.i ((offset + 32) / 32), pc := st.pc + 1 }
  | _ => .error .indexError

/-- `MSTORE8`: pops `offset` then `value`, writes one byte, and grows `i` to
at least `(offset + 1) // 32` (the floor, exactly as the source computes
it). -/
def mstore8 (st : MachineState) : Except Fault MachineState :=
  match st.s with
  | offv :: value :: rest =>
    let offset := offv.unsigned
    .ok { st with m := write_mem_8 st.m offset value, s := rest,
                  i := max st.i ((offset + 1) / 32), pc := st.pc + 1 }
  | _ => .error .indexError

/-- Python `state.code[dest]` for a nonnegative `dest`: `IndexError` out of
bounds. -/
def codeIndex (l : List Nat) (d : Nat) : Except Fault Nat :=
  if d < l.length then .ok (l.getD d 0) else .error .indexError

/-- `JUMP`: pops the destination, indexes `code` at it (IndexError when out
of bounds), raises `InvalidJumpDestination` unless that byte is `0x5b`
(`JUMPDEST`), and otherwise sets `pc` to the destination. -/
def jump (st : MachineState) : Except Fault MachineState :=
  match st.s with
  | [] => .error .indexError
  | d :: s1 =>
    match codeIndex st.code d.unsigned with
    | .error e => .error e
    | .ok b =>
      if b ≠ 0x5b then .error .invalidJumpDestination
      else .ok { st with s := s1, pc := d.unsigned }

/-- The test `cond != 0` in `jumpi`, with `cond` an `Int256` object and `0`
an `int`.  `Int256` defines neither `__eq__` nor `__ne__`, so CPython falls
back to identity comparison, and an `Int256` instance is never the same
object as the int `0`: the test is `True` for every condition word. -/
def int256_ne_int (_cond : Int256) (_n : Int) : Bool :=
  true

/-- `JUMPI`: pops the destination first and validates it exactly like
`jump`; only then pops the condition, and jumps when `cond != 0` (see
`int256_ne_int`), otherwise advances `pc` by 1. -/
def jumpi (st : MachineState) : Except Fault MachineState :=
  match st.s with
  | [] => .error .indexError
  | d :: s1 =>
    match codeIndex st.code d.unsigned with
    | .error e => .error e
    | .ok b =>
      if b ≠ 0x5b then .error .invalidJumpDestination
      else
        match s1 with
        | [] => .error .indexError
        | cond :: s2 =>
          if int256_ne_int cond 0 then .ok { st with s := s2, pc := d.unsigned }
          else .ok { st with s := s2, pc := st.pc + 1 }

/-- Shared shape of the handlers that push one freshly computed word:
`s.append(v); pc += 1` (with `v` the result of a `from_int` call that the
caller supplies). -/
def pushOp (v : Except Fault Int256) (st : MachineState) : Except Fault MachineState :=
  match v with
  | .ok w => .ok { st with s := w :: st.s, pc := st.pc + 1 }
  | .error e => .error e

/-- `PC`: pushes `from_int(state.pc)`. -/
def pc (st : MachineState) : Except Fault MachineState :=
  pushOp (from_int (st.pc : Int)) st

/-- `MSIZE`: pushes `from_int(state.i * 32)`. -/
def msize (st : MachineState) : Except Fault MachineState :=
  pushOp (from_int ((st.i * 32 : Nat) : Int)) st

/-- The handler registered for `GAS` (the source reuses the Python name
`msize` for it): pushes `from_int(state.gas)`. -/
def gas (st : MachineState) : Except Fault MachineState :=
  pushOp (from_int (st.gas : Int)) st

/-- `JUMPDEST`: a no-op marker, advances `pc` by 1. -/
def jumpdest (st : MachineState) : Except Fault MachineState :=
  .ok { st with pc := st.pc + 1 }

/-- `push_n(n)`: reads `code[pc + 1 : pc + 1 + n]` (a Python slice, clamped
at the end of the code), left-pads with `32 - n` zero bytes, builds the word
through the `Int256` constructor (which raises `ValueError` if trailing
immediate bytes were missing), pushes it, and advances `pc` by `1 + n`. -/
def push_n (n : Nat) (st : MachineState) : Except Fault MachineState :=
  match Int256.init (List.replicate (32 - n) 0 ++ (st.code.drop (st.pc + 1)).take n) with
  | .ok v => .ok { st with s := v :: st.s, pc := st.pc + 1 + n }
  | .error e => .error e

/-- `dup_n(n)`: `s.append(s[-n]); pc += 1` — `s[-n]` is the `n`-th word from
the top, `IndexError` when the stack is shallower than `n`. -/
def dup_n (n : Nat) (st : MachineState) : Except Fault MachineState :=
  match st.s.get? (n - 1) with
  | some v => .ok { st with s := v :: st.s, pc := st.pc + 1 }
  | none => .error .indexError

/-- `swap_n(n)`: exchanges `s[-1]` and `s[-(n+1)]`; `IndexError` when the
stack is shallower than `n + 1`. -/
def swap_n (n : Nat) (st : MachineState) : Except Fault MachineState :=
  match st.s.get? 0, st.s.get? n with
  | some x, some y => .ok { st with s := (st.s.set 0 y).set n x, pc := st.pc + 1 }
  | _, _ => .error .indexError

/-- The dispatch table `_INSTRUCTION_MAP`, keyed by opcode byte, exactly as
the decorator registrations and the three registration loops build it.
`SUB` (`0x03`) is never registered.  A key with no entry is `none` (a lookup
then raises `KeyError`, see `execute`). -/
def INSTRUCTION_MAP (m : Nat) : Option (MachineState → Except Fault MachineState) :=
  if m = 0x00 then some stop
  else if m = 0x01 then some add
  else if m = 0x02 then some mul
  else if m = 0x04 then some div
  else if m = 0x05 then some sdiv
  else if m = 0x06 then some mod
  else if m = 0x07 then some smod
  else if m = 0x08 then some addmod
  else if m = 0x09 then some mulmod
  else if m = 0x0a then some exp
  else if m = 0x0b then some signextend
  else if m = 0x10 then some lt
  else if m = 0x11 then some gt
  else if m = 0x12 then some slt
  else if m = 0x13 then some sgt
  else if m = 0x14 then some eq
  else if m = 0x15 then some iszero
  else if m = 0x16 then some and_
  else if m = 0x17 then some or_
  else if m = 0x18 then some xor
  else if m = 0x19 then some not_
  else if m = 0x1a then some byte
  else if m = 0x1b then some shl
  else if m = 0x1c then some shr
  else if m = 0x1d then some sar
  else if m = 0x50 then some pop
  else if m = 0x51 then some mload
  else if m = 0x52 then some mstore
  else if m = 0x53 then some mstore8
  else if m = 0x56 then some jump
  else if m = 0x57 then some jumpi
  else if m = 0x58 then some pc
  else if m = 0x59 then some msize
  else if m = 0x5a then some gas
  else if m = 0x5b then some jumpdest
  else if 0x60 ≤ m ∧ m ≤ 0x7f then some (push_n (m - 0x5f))
  else if 0x80 ≤ m ∧ m ≤ 0x8f then some (dup_n (m - 0x7f))
  else if 0x90 ≤ m ∧ m ≤ 0x9f then some (swap_n (m - 0x8f))
  else none

/-- `execute(state, m)`: `_INSTRUCTION_MAP[m](state)` — a dict lookup that
raises `KeyError` for an unregistered opcode byte, then the handler call. -/
def execute (st : MachineState) (m : Nat) : Except Fault MachineState :=
  match INSTRUCTION_MAP m with
  | some f => f st
  | none => .error .keyError

/-- The interpreter loop of `main`: while `pc < len(code)`, fetch the byte at
`pc` and `execute` it.  The fuel argument only bounds the number of
iterations so the definition is total; `runFuel f st` is the state after at
most `f` steps. -/
def runFuel : Nat → MachineState → Except Fault MachineState
  | 0, st => .ok st
  | f + 1, st =>
    if st.pc < st.code.length then
      match execute st (st.code.getD st.pc 0) with
      | .ok st' => runFuel f st'
      | .error e => .error e
    else .ok st

end EVM

/-! ### Concrete states used by the claim theorems -/

/-- The well-formed word with unsigned value `b`, for a byte-sized `b`:
31 zero bytes followed by `b`. -/
def word (b : Nat) : Int256 :=
  ⟨List.replicate 31 0 ++ [b]⟩

/-- A state about to run `JUMPI` with destination 2 (a `JUMPDEST`) on top of
the stack and the condition word 0 beneath it. -/
def c1State : MachineState :=
  { code := [0x00, 0x00, 0x5b], gas := 0, pc := 0, m := fun _ => 0, i := 0,
    s := [word 2, word 0] }

/-- C1: the claim says `JUMPI` jumps exactly when the condition is nonzero
and otherwise advances `pc` by 1.  The code pops the destination first and
the condition second as claimed, but its test `cond != 0` compares an
`Int256` object with the int `0` by identity, so it is always true: with the
condition word 0 the machine still jumps, here to `pc = 2`, while the claim
requires the no-op advance to `pc = 0 + 1 = 1`. -/
theorem C1_jumpi_ignores_condition :
    EVM.jumpi c1State = .ok { c1State with s := [], pc := 2 } ∧ c1State.pc + 1 = 1 :=
  ⟨rfl, rfl⟩

/-- A state whose next byte is the unregistered opcode `0x03` (`SUB`). -/
def c5State : MachineState :=
  { code := [0x03], gas := 0, pc := 0, m := fun _ => 0, i := 0, s := [] }

/-- C5 counterexample: dispatching `SUB` (`0x03`) raises `KeyError` — the
fault of the dict lookup — and `KeyError` is not the `InvalidOpcode` fault
kind the claim names (no `InvalidOpcode` exception exists in the code). -/
theorem C5_counterexample :
    EVM.execute c5State 0x03 = .error .keyError ∧ Fault.keyError ≠ Fault.invalidOpcode :=
  ⟨rfl, by decide⟩

/-- C5 amended: `SUB` (`0x03`) has no binding in the opcode table, and every
opcode byte with no registered operation faults — the dispatch raises
`KeyError` (rather than a dedicated `InvalidOpcode` fault); it is never
silently ignored. -/
theorem C5_unregistered_keyError :
    EVM.INSTRUCTION_MAP 0x03 = none ∧
    ∀ (st : MachineState) (m : Nat), EVM.INSTRUCTION_MAP m = none →
      EVM.execute st m = .error .keyError :=
  ⟨rfl, fun st m h => by unfold EVM.execute; rw [h]⟩

/-- C5 witness: the amended theorem applied at the concrete state `c5State`
and the concrete opcode byte `0x03`. -/
theorem C5_witness : EVM.execute c5State 0x03 = .error .keyError :=
  C5_unregistered_keyError.2 c5State 0x03 rfl

/-- A fresh state about to run `MSTORE8` at offset 33 and then `MSIZE`. -/
def c6State : MachineState :=
  { code := [0x53, 0x59], gas := 0, pc := 0, m := fun _ => 0, i := 0,
    s := [word 33, word 0] }

/-- C6: after `MSTORE8` at offset 33 the code leaves `i = (33 + 1) / 32 = 1`
(a floor, not the ceiling the claim states), so the following `MSIZE` pushes
the word 32 — the claim requires 64.  The second conjunct is the value the
claim's `ceil((offset + 1) / 32)` takes at offset 33. -/
theorem C6_mstore8_floor_not_ceil :
    ((EVM.execute c6State 0x53).bind fun s1 => EVM.execute s1 0x59).map
        (fun s2 => (s2.i, s2.s.map Int256.unsigned)) = .ok (1, [32]) ∧
    (33 + 1 + 31) / 32 = 2 :=
  ⟨rfl, rfl⟩

/-- The word with unsigned value `2 ^ 53 + 1`, the smallest integer that is
not exactly representable as an IEEE-754 double. -/
def c7aW : Int256 :=
  ⟨natToBytesBE 32 (2 ^ 53 + 1)⟩

/-- The word with unsigned value 1. -/
def c7bW : Int256 :=
  ⟨natToBytesBE 32 1⟩

/-- C7: `sdiv` computes its general case through Python float division, so
`sdiv(2 ^ 53 + 1, 1)` loses the last bit to double rounding and returns
`2 ^ 53`, while exact signed division truncated toward zero (the claim)
gives `2 ^ 53 + 1` (the second conjunct). -/
theorem C7_sdiv_float_rounding :
    (Int256.sdiv c7aW c7bW).map Int256.unsigned = .ok (2 ^ 53) ∧
    (2 ^ 53 + 1) / 1 = 2 ^ 53 + 1 :=
  ⟨rfl, rfl⟩

/-- The word with unsigned value `2 ^ 255` (top bit set). -/
def c8W : Int256 :=
  ⟨0x80 :: List.replicate 31 0⟩

/-- C8: `not_` computes `from_signed_int(~unsigned)`; for a word with the
top bit set, `~unsigned = -unsigned - 1` is below `-2 ^ 255`, so
`to_bytes(32, "big", signed=True)` raises `OverflowError` instead of
returning the complement — `not` fails on half of the unsigned domain. -/
theorem C8_not_overflow :
    Int256.not_ c8W = .error .overflowError ∧ c8W.unsigned = 2 ^ 255 :=
  ⟨rfl, rfl⟩

/-! ### C2: PUSH immediates and control transfer -/

/-- The instruction-start offsets reached when stepping from offset 0 under
the spec's stepping discipline: a `PUSHn` opcode byte (`0x60 + n - 1`)
advances by `1 + n`, every other byte by 1.  In-bounds offsets that are not
in this list are exactly the PUSH-immediate (data) positions.  The fuel is
the code length, which bounds the number of instruction starts. -/
def instrStartsAux : Nat → Nat → List Nat → List Nat
  | 0, _, _ => []
  | f + 1, p, code =>
    if p < code.length then
      p :: instrStartsAux f
        (p + (if 0x60 ≤ code.getD p 0 ∧ code.getD p 0 ≤ 0x7f
              then 1 + (code.getD p 0 - 0x5f) else 1)) code
    else []

/-- Instruction-start offsets of a program, walked from offset 0. -/
def instrStarts (code : List Nat) : List Nat :=
  instrStartsAux code.length 0 code

/-- `PUSH1 0x5b; PUSH1 0x01; JUMP`: the byte `0x5b` at offset 1 is the
immediate of the first `PUSH1`. -/
def c2Code : List Nat :=
  [0x60, 0x5b, 0x60, 0x01, 0x56]

/-- The initial machine state on `c2Code`. -/
def c2State : MachineState :=
  { code := c2Code, gas := 0, pc := 0, m := fun _ => 0, i := 0, s := [] }

/-- C2 counterexample: executing `c2Code` from program counter 0, after
three steps control has transferred to offset 1 — an in-bounds offset that
is not an instruction start, i.e. a `PUSH1` immediate byte — and the fourth
step dispatches that byte as an instruction (it is `0x5b`, so it runs as
`JUMPDEST` and advances the program counter to 2). -/
theorem C2_counterexample :
    (EVM.runFuel 3 c2State).map MachineState.pc = .ok 1 ∧
    (instrStarts c2Code).contains 1 = false ∧
    1 < c2Code.length ∧
    (EVM.runFuel 4 c2State).map MachineState.pc = .ok 2 :=
  ⟨rfl, rfl, by decide, rfl⟩

/-- C2 amended: sequential stepping does skip immediates — a successful
`PUSHn` always advances the program counter by `1 + n`, past all `n`
immediate bytes — but `JUMP` validates a destination only by its byte value:
whenever the byte at the popped destination equals `0x5b` it transfers
control there, whether or not that offset lies inside a PUSH immediate. -/
theorem C2_push_discipline_vs_jump :
    (∀ (n : Nat) (st st' : MachineState),
       EVM.push_n n st = .ok st' → st'.pc = st.pc + 1 + n) ∧
    (∀ (st : MachineState) (d : Int256) (s1 : List Int256), st.s = d :: s1 →
       d.unsigned < st.code.length → st.code.getD d.unsigned 0 = 0x5b →
       EVM.jump st = .ok { st with s := s1, pc := d.unsigned }) := by
  constructor
  · intro n st st' h
    unfold EVM.push_n at h
    split at h
    · cases h; rfl
    · cases h
  · intro st d s1 hs hlt hb
    simp only [EVM.jump, hs, EVM.codeIndex]
    rw [if_pos hlt, hb]
    simp

/-- C2 witness: the amended theorem applied at concrete inputs — the first
`PUSH1` of `c2State` advances the program counter from 0 to 2, and `JUMP` on
`c1State` (destination 2, whose byte is `0x5b`) transfers control there. -/
theorem C2_witness :
    ({ c2State with s := [⟨List.replicate 31 0 ++ [0x5b]⟩], pc := 2 } : MachineState).pc
        = c2State.pc + 1 + 1 ∧
    EVM.jump c1State = .ok { c1State with s := [word 0], pc := 2 } :=
  ⟨C2_push_discipline_vs_jump.1 1 c2State
      { c2State with s := [⟨List.replicate 31 0 ++ [0x5b]⟩], pc := 2 } rfl,
   C2_push_discipline_vs_jump.2 c1State (word 2) [word 0] rfl (by decide) (by decide)⟩

/-! ### C3: fault kinds of JUMP validation -/

/-- C3 amended: with `d :: s1` on the stack, `JUMP` faults with
`InvalidJumpDestination` for every in-bounds destination whose byte is not
`0x5b`; but an out-of-bounds destination faults with `IndexError` (the bytes
indexing error — the code never checks bounds itself), not with
`InvalidJumpDestination`. -/
theorem C3_jump_fault_kinds (st : MachineState) (d : Int256) (s1 : List Int256)
    (hs : st.s = d :: s1) :
    (d.unsigned < st.code.length → st.code.getD d.unsigned 0 ≠ 0x5b →
       EVM.jump st = .error .invalidJumpDestination) ∧
    (st.code.length ≤ d.unsigned → EVM.jump st = .error .indexError) := by
  constructor
  · intro hlt hne
    simp only [EVM.jump, hs, EVM.codeIndex]
    rw [if_pos hlt]
    simpa using hne
  · intro hge
    simp only [EVM.jump, hs, EVM.codeIndex]
    rw [if_neg (by omega : ¬d.unsigned < st.code.length)]

/-- A state about to `JUMP` to the in-bounds destination 0, whose byte is
`0x00`, not `JUMPDEST`. -/
def c3StateA : MachineState :=
  { code := [0x00], gas := 0, pc := 0, m := fun _ => 0, i := 0, s := [word 0] }

/-- A state about to `JUMP` to destination 1, out of bounds of its one-byte
program. -/
def c3StateB : MachineState :=
  { code := [0x00], gas := 0, pc := 0, m := fun _ => 0, i := 0, s := [word 1] }

/-- C3 witness: the amended theorem applied at the two concrete states. -/
theorem C3_witness :
    EVM.jump c3StateA = .error .invalidJumpDestination ∧
    EVM.jump c3StateB = .error .indexError :=
  ⟨(C3_jump_fault_kinds c3StateA (word 0) [] rfl).1 (by decide) (by decide),
   (C3_jump_fault_kinds c3StateB (word 1) [] rfl).2 (by decide)⟩

/-- C3 counterexample: the out-of-bounds `JUMP` faults with `IndexError`,
which is not the `InvalidJumpDestination` fault the claim requires for every
invalid destination including out-of-bounds ones. -/
theorem C3_counterexample :
    EVM.jump c3StateB = .error .indexError ∧
    Fault.indexError ≠ Fault.invalidJumpDestination :=
  ⟨rfl, by decide⟩

/-! ### C4: fault kind of stack underflow -/

/-- A two-operand handler on a stack of fewer than two words faults with
`IndexError` (the `list.pop` error). -/
theorem under_binOp (f : Int256 → Int256 → Except Fault Int256) (st : MachineState)
    (h : st.s.length < 2) : EVM.binOp f st = .error .indexError := by
  rcases hs : st.s with _ | ⟨a, _ | ⟨c, rest⟩⟩
  · unfold EVM.binOp; rw [hs]
  · unfold EVM.binOp; rw [hs]
  · rw [hs] at h; simp only [List.length_cons] at h; omega

/-- A one-operand handler on an empty stack faults with `IndexError`. -/
theorem under_unOp (f : Int256 → Except Fault Int256) (st : MachineState)
    (h : st.s.length < 1) : EVM.unOp f st = .error .indexError := by
  rcases hs : st.s with _ | ⟨a, rest⟩
  · unfold EVM.unOp; rw [hs]
  · rw [hs] at h; simp only [List.length_cons] at h; omega

/-- A three-operand handler on a stack of fewer than three words faults with
`IndexError`. -/
theorem under_ternOp (f : Int256 → Int256 → Int256 → Except Fault Int256)
    (st : MachineState) (h : st.s.length < 3) : EVM.ternOp f st = .error .indexError := by
  rcases hs : st.s with _ | ⟨a, _ | ⟨c, _ | ⟨e, rest⟩⟩⟩
  · unfold EVM.ternOp; rw [hs]
  · unfold EVM.ternOp; rw [hs]
  · unfold EVM.ternOp; rw [hs]
  · rw [hs] at h; simp only [List.length_cons] at h; omega

/-- `POP` on an empty stack faults with `IndexError`. -/
theorem under_pop (st : MachineState) (h : st.s.length < 1) :
    EVM.pop st = .error .indexError := by
  rcases hs : st.s with _ | ⟨a, rest⟩
  · unfold EVM.pop; rw [hs]
  · rw [hs] at h; simp only [List.length_cons] at h; omega

/-- `MLOAD` on an empty stack faults with `IndexError` (reading `s[-1]`). -/
theorem under_mload (st : MachineState) (h : st.s.length < 1) :
    EVM.mload st = .error .indexError := by
  rcases hs : st.s with _ | ⟨a, rest⟩
  · unfold EVM.mload; rw [hs]
  · rw [hs] at h; simp only [List.length_cons] at h; omega

/-- `MSTORE` on a stack of fewer than two words faults with `IndexError`. -/
theorem under_mstore (st : MachineState) (h : st.s.length < 2) :
    EVM.mstore st = .error .indexError := by
  rcases hs : st.s with _ | ⟨a, _ | ⟨c, rest⟩⟩
  · unfold EVM.mstore; rw [hs]
  · unfold EVM.mstore; rw [hs]
  · rw [hs] at h; simp only [List.length_cons] at h; omega

/-- `MSTORE8` on a stack of fewer than two words faults with `IndexError`. -/
theorem under_mstore8 (st : MachineState) (h : st.s.length < 2) :
    EVM.mstore8 st = .error .indexError := by
  rcases hs : st.s with _ | ⟨a, _ | ⟨c, rest⟩⟩
  · unfold EVM.mstore8; rw [hs]
  · unfold EVM.mstore8; rw [hs]
  · rw [hs] at h; simp only [List.length_cons] at h; omega

/-- `JUMP` on an empty stack faults with `IndexError`. -/
theorem under_jump (st : MachineState) (h : st.s.length < 1) :
    EVM.jump st = .error .indexError := by
  rcases hs : st.s with _ | ⟨a, rest⟩
  · unfold EVM.jump; rw [hs]
  · rw [hs] at h; simp only [List.length_cons] at h; omega

/-- `JUMPI` on a stack of fewer than the two words it pops always faults,
but with one of two kinds: it validates the popped destination before
popping the condition, so with exactly one word on the stack it faults with
`InvalidJumpDestination` when that word is an in-bounds non-`JUMPDEST`
destination, and with `IndexError` otherwise (empty stack, out-of-bounds
destination, or the condition pop on the emptied stack). -/
theorem under_jumpi (st : MachineState) (h : st.s.length < 2) :
    EVM.jumpi st = .error .indexError ∨ EVM.jumpi st = .error .invalidJumpDestination := by
  rcases hs : st.s with _ | ⟨d, s1⟩
  · left; unfold EVM.jumpi; rw [hs]
  · have hs1 : s1 = [] := by
      rw [hs] at h
      simp only [List.length_cons] at h
      exact List.eq_nil_of_length_eq_zero (by omega)
    subst hs1
    by_cases hb : d.unsigned < st.code.length
    · by_cases h5b : st.code.getD d.unsigned 0 = 0x5b
      · left
        simp only [EVM.jumpi, hs, EVM.codeIndex]
        rw [if_pos hb, h5b]
        simp
      · right
        simp only [EVM.jumpi, hs, EVM.codeIndex]
        rw [if_pos hb]
        simpa using h5b
    · left
      simp only [EVM.jumpi, hs, EVM.codeIndex]
      rw [if_neg hb]

/-- `DUPn` on a stack of fewer than `n` words faults with `IndexError`
(reading `s[-n]`). -/
theorem under_dup (n : Nat) (st : MachineState) (h1 : 1 ≤ n) (h : st.s.length < n) :
    EVM.dup_n n st = .error .indexError := by
  have hn : st.s.get? (n - 1) = none := by
    rw [List.get?_eq_none]
    omega
  unfold EVM.dup_n
  rw [hn]

/-- `SWAPn` on a stack of fewer than `n + 1` words faults with `IndexError`
(reading `s[-(n+1)]`). -/
theorem under_swap (n : Nat) (st : MachineState) (h : st.s.length < n + 1) :
    EVM.swap_n n st = .error .indexError := by
  have hn : st.s.get? n = none := by
    rw [List.get?_eq_none]
    omega
  unfold EVM.swap_n
  cases h0 : st.s.get? 0 <;> rw [hn]

/-- The number of stack words each registered handler pops (or reads), read
off the handlers in `evm.py`: one for `ISZERO`, `NOT`, `POP`, `MLOAD` and
`JUMP`; three for `ADDMOD` and `MULMOD`; `n` for `DUPn` (it reads `s[-n]`);
`n + 1` for `SWAPn` (it reads `s[-(n+1)]`); zero for `STOP`, `PC`, `MSIZE`,
`GAS`, `JUMPDEST` and the pushes; and two for every other registered opcode
(the remaining arithmetic, comparison and bitwise handlers, `MSTORE`,
`MSTORE8` and `JUMPI`).  Used only to state the underflow claim. -/
def popsNeeded (b : Nat) : Nat :=
  if b = 0x15 ∨ b = 0x19 ∨ b = 0x50 ∨ b = 0x51 ∨ b = 0x56 then 1
  else if b = 0x08 ∨ b = 0x09 then 3
  else if 0x80 ≤ b ∧ b ≤ 0x8f then b - 0x7f
  else if 0x90 ≤ b ∧ b ≤ 0x9f then b - 0x8f + 1
  else if b = 0x00 ∨ b = 0x58 ∨ b = 0x59 ∨ b = 0x5a ∨ b = 0x5b ∨ (0x60 ≤ b ∧ b ≤ 0x7f)
    then 0
  else 2


/-- C4 amended: executing any registered opcode that needs to pop more Words
than the stack currently holds never succeeds and always faults
deterministically — with `IndexError` (CPython's pop/index error: the code
defines no `StackUnderflow` exception), except that `JUMPI` validates the
popped destination before popping the condition, so on a one-word stack it
faults with `InvalidJumpDestination` instead when that word is an in-bounds
non-`JUMPDEST` destination. -/
theorem C4_underflow_faults (st : MachineState) (b : Nat)
    (hreg : (EVM.INSTRUCTION_MAP b).isSome = true)
    (hlen : st.s.length < popsNeeded b) :
    EVM.execute st b = .error .indexError ∨
    (b = 0x57 ∧ EVM.execute st b = .error .invalidJumpDestination) := by
  by_cases e00 : b = 0x00
  · subst e00
    exact absurd hlen (Nat.not_lt_zero _)
  by_cases e01 : b = 0x01
  · subst e01
    exact Or.inl (under_binOp Int256.add st hlen)
  by_cases e02 : b = 0x02
  · subst e02
    exact Or.inl (under_binOp Int256.mul st hlen)
  by_cases e04 : b = 0x04
  · subst e04
    exact Or.inl (under_binOp Int256.div st hlen)
  by_cases e05 : b = 0x05
  · subst e05
    exact Or.inl (under_binOp Int256.sdiv st hlen)
  by_cases e06 : b = 0x06
  · subst e06
    exact Or.inl (under_binOp Int256.mod st hlen)
  by_cases e07 : b = 0x07
  · subst e07
    exact Or.inl (under_binOp Int256.smod st hlen)
  by_cases e08 : b = 0x08
  · subst e08
    exact Or.inl (under_ternOp Int256.addmod st hlen)
  by_cases e09 : b = 0x09
  · subst e09
    exact Or.inl (under_ternOp Int256.mulmod st hlen)
  by_cases e0a : b = 0x0a
  · subst e0a
    exact Or.inl (under_binOp Int256.exp st hlen)
  by_cases e0b : b = 0x0b
  · subst e0b
    exact Or.inl (under_binOp (fun size target => Int256.signextend target size) st hlen)
  by_cases e10 : b = 0x10
  · subst e10
    exact Or.inl (under_binOp Int256.lt st hlen)
  by_cases e11 : b = 0x11
  · subst e11
    exact Or.inl (under_binOp Int256.gt st hlen)
  by_cases e12 : b = 0x12
  · subst e12
    exact Or.inl (under_binOp Int256.slt st hlen)
  by_cases e13 : b = 0x13
  · subst e13
    exact Or.inl (under_binOp Int256.sgt st hlen)
  by_cases e14 : b = 0x14
  · subst e14
    exact Or.inl (under_binOp Int256.eq st hlen)
  by_cases e15 : b = 0x15
  · subst e15
    exact Or.inl (under_unOp Int256.iszero st hlen)
  by_cases e16 : b = 0x16
  · subst e16
    exact Or.inl (under_binOp Int256.and_ st hlen)
  by_cases e17 : b = 0x17
  · subst e17
    exact Or.inl (under_binOp Int256.or_ st hlen)
  by_cases e18 : b = 0x18
  · subst e18
    exact Or.inl (under_binOp Int256.xor st hlen)
  by_cases e19 : b = 0x19
  · subst e19
    exact Or.inl (under_unOp Int256.not_ st hlen)
  by_cases e1a : b = 0x1a
  · subst e1a
    exact Or.inl (under_binOp (fun index value => Int256.byte value index.unsigned) st hlen)
  by_cases e1b : b = 0x1b
  · subst e1b
    exact Or.inl (under_binOp (fun shift value => Int256.shl value shift) st hlen)
  by_cases e1c : b = 0x1c
  · subst e1c
    exact Or.inl (under_binOp (fun shift value => Int256.shr value shift) st hlen)
  by_cases e1d : b = 0x1d
  · subst e1d
    exact Or.inl (under_binOp (fun shift value => Int256.sar value shift) st hlen)
  by_cases e50 : b = 0x50
  · subst e50
    exact Or.inl (under_pop st hlen)
  by_cases e51 : b = 0x51
  · subst e51
    exact Or.inl (under_mload st hlen)
  by_cases e52 : b = 0x52
  · subst e52
    exact Or.inl (under_mstore st hlen)
  by_cases e53 : b = 0x53
  · subst e53
    exact Or.inl (under_mstore8 st hlen)
  by_cases e56 : b = 0x56
  · subst e56
    exact Or.inl (under_jump st hlen)
  by_cases e57 : b = 0x57
  · subst e57
    rcases under_jumpi st hlen with hh | hh
    · exact Or.inl hh
    · exact Or.inr ⟨rfl, hh⟩
  by_cases e58 : b = 0x58
  · subst e58
    exact absurd hlen (Nat.not_lt_zero _)
  by_cases e59 : b = 0x59
  · subst e59
    exact absurd hlen (Nat.not_lt_zero _)
  by_cases e5a : b = 0x5a
  · subst e5a
    exact absurd hlen (Nat.not_lt_zero _)
  by_cases e5b : b = 0x5b
  · subst e5b
    exact absurd hlen (Nat.not_lt_zero _)
  by_cases epu : 0x60 ≤ b ∧ b ≤ 0x7f
  · have hp : popsNeeded b = 0 := by
      unfold popsNeeded
      repeat rw [if_neg (by omega)]
      rw [if_pos (by omega)]
    rw [hp] at hlen
    exact absurd hlen (Nat.not_lt_zero _)
  by_cases edu : 0x80 ≤ b ∧ b ≤ 0x8f
  · have hM : EVM.INSTRUCTION_MAP b = some (EVM.dup_n (b - 0x7f)) := by
      unfold EVM.INSTRUCTION_MAP
      repeat rw [if_neg (by omega)]
      rw [if_pos edu]
    have hp : popsNeeded b = b - 0x7f := by
      unfold popsNeeded
      repeat rw [if_neg (by omega)]
      rw [if_pos edu]
    rw [hp] at hlen
    unfold EVM.execute
    rw [hM]
    exact Or.inl (under_dup (b - 0x7f) st (by omega) hlen)
  by_cases esw : 0x90 ≤ b ∧ b ≤ 0x9f
  · have hM : EVM.INSTRUCTION_MAP b = some (EVM.swap_n (b - 0x8f)) := by
      unfold EVM.INSTRUCTION_MAP
      repeat rw [if_neg (by omega)]
      rw [if_pos esw]
    have hp : popsNeeded b = b - 0x8f + 1 := by
      unfold popsNeeded
      repeat rw [if_neg (by omega)]
      rw [if_pos esw]
    rw [hp] at hlen
    unfold EVM.execute
    rw [hM]
    exact Or.inl (under_swap (b - 0x8f) st hlen)
  have hnone : EVM.INSTRUCTION_MAP b = none := by
    unfold EVM.INSTRUCTION_MAP
    repeat rw [if_neg (by omega)]
  rw [hnone] at hreg
  simp at hreg

/-- A state with an empty stack, about to execute `POP`. -/
def c4State : MachineState :=
  { code := [0x50], gas := 0, pc := 0, m := fun _ => 0, i := 0, s := [] }

/-- A state holding a single word, about to execute `ADD` (which needs
two). -/
def c4StateB : MachineState :=
  { code := [0x01], gas := 0, pc := 0, m := fun _ => 0, i := 0, s := [word 7] }

/-- C4 witness: the amended theorem applied at two concrete underflows —
`POP` on the empty stack of `c4State` and `ADD` on the one-word stack of
`c4StateB`. -/
theorem C4_witness :
    (EVM.execute c4State 0x50 = .error .indexError ∨
      ((0x50 : Nat) = 0x57 ∧ EVM.execute c4State 0x50 = .error .invalidJumpDestination)) ∧
    (EVM.execute c4StateB 0x01 = .error .indexError ∨
      ((0x01 : Nat) = 0x57 ∧ EVM.execute c4StateB 0x01 = .error .invalidJumpDestination)) :=
  ⟨C4_underflow_faults c4State 0x50 rfl (by decide),
   C4_underflow_faults c4StateB 0x01 rfl (by decide)⟩

/-- C4 counterexample: `POP` on the empty stack faults with `IndexError`,
which is not the `StackUnderflow` fault kind the claim names (the code
defines no such exception). -/
theorem C4_counterexample :
    EVM.pop c4State = .error .indexError ∧ Fault.indexError ≠ Fault.stackUnderflow :=
  ⟨rfl, by decide⟩

/-! ### C10: the two views of a word and the constructor round trip -/

/-- Folding the big-endian digit accumulator from `a` instead of 0 scales
`a` by `256 ^ length`. -/
theorem bytesToNat_acc (l : List Nat) : ∀ a : Nat,
    l.foldl (fun x b => x * 256 + b) a = a * 256 ^ l.length + bytesToNat l := by
  induction l with
  | nil => intro a; simp [bytesToNat]
  | cons b l ih =>
    intro a
    simp only [List.foldl_cons, List.length_cons, bytesToNat]
    rw [ih (a * 256 + b), ih (0 * 256 + b)]
    ring

/-- The leading byte carries weight `256 ^ length` of the tail. -/
theorem bytesToNat_cons (b : Nat) (l : List Nat) :
    bytesToNat (b :: l) = b * 256 ^ l.length + bytesToNat l := by
  show l.foldl (fun x c => x * 256 + c) (0 * 256 + b) = _
  rw [bytesToNat_acc]
  ring

/-- A digit-valid byte string denotes a number below `256 ^ length`. -/
theorem bytesToNat_lt (l : List Nat) (h : ∀ b ∈ l, b < 256) :
    bytesToNat l < 256 ^ l.length := by
  induction l with
  | nil => simp [bytesToNat]
  | cons b l ih =>
    rw [bytesToNat_cons, List.length_cons]
    have hb : b ≤ 255 := by have := h b (by simp); omega
    have hl : bytesToNat l < 256 ^ l.length := ih fun c hc => h c (by simp [hc])
    calc b * 256 ^ l.length + bytesToNat l
        < b * 256 ^ l.length + 256 ^ l.length := by omega
      _ = (b + 1) * 256 ^ l.length := by ring
      _ ≤ 256 * 256 ^ l.length := Nat.mul_le_mul_right _ (by omega)
      _ = 256 ^ (l.length + 1) := by ring

/-- Appending a final byte multiplies by the base and adds the byte. -/
theorem bytesToNat_concat (l : List Nat) (b : Nat) :
    bytesToNat (l ++ [b]) = bytesToNat l * 256 + b := by
  simp [bytesToNat, List.foldl_append]

/-- Big-endian decoding then re-encoding at the same width is the
identity on digit-valid byte strings. -/
theorem natToBytesBE_bytesToNat (l : List Nat) (h : ∀ b ∈ l, b < 256) :
    natToBytesBE l.length (bytesToNat l) = l := by
  induction l using List.reverseRecOn with
  | nil => simp [natToBytesBE, bytesToNat]
  | append_singleton l b ih =>
    have hb : b < 256 := h b (by simp)
    have hl : ∀ c ∈ l, c < 256 := fun c hc => h c (by simp [hc])
    rw [bytesToNat_concat, List.length_append, List.length_singleton]
    show natToBytesBE l.length ((bytesToNat l * 256 + b) / 256) ++
        [(bytesToNat l * 256 + b) % 256] = l ++ [b]
    have h1 : (bytesToNat l * 256 + b) / 256 = bytesToNat l := by omega
    have h2 : (bytesToNat l * 256 + b) % 256 = b := by omega
    rw [h1, h2, ih hl]

/-- For a digit `b0` weighted by `k` against a remainder `r < k`, the top
half of the digit range is reached exactly when the digit is at least
128. -/
theorem digit_top_iff (b0 r k : Nat) (hr : r < k) :
    128 ≤ b0 ↔ 128 * k ≤ b0 * k + r := by
  constructor
  · intro h
    calc 128 * k ≤ b0 * k := Nat.mul_le_mul_right k h
      _ ≤ b0 * k + r := Nat.le_add_right _ _
  · intro h
    by_contra hb
    push_neg at hb
    have h1 : b0 * k ≤ 127 * k := Nat.mul_le_mul_right k (by omega)
    omega

/-- C10: for every well-formed word the two read-only views are congruent
modulo `2 ^ 256`; the signed view is `unsigned - 2 ^ 256` exactly when
`unsigned ≥ 2 ^ 255`; and `from_int(unsigned)` reconstructs the word
byte-for-byte. -/
theorem C10_word_views (w : Int256) (hw : w.Wf) :
    Int.ModEq (2 ^ 256) w.signed (w.unsigned : Int) ∧
    (w.signed = (w.unsigned : Int) - 2 ^ 256 ↔ 2 ^ 255 ≤ w.unsigned) ∧
    from_int (w.unsigned : Int) = .ok w := by
  obtain ⟨l⟩ := w
  obtain ⟨hlen, hbytes⟩ := hw
  cases l with
  | nil => simp at hlen
  | cons b0 rest =>
    have hlen32 : (b0 :: rest).length = 32 := hlen
    have hrest : rest.length = 31 := by simpa using hlen32
    have hb0 : b0 < 256 := hbytes b0 (by simp)
    have hrb : ∀ c ∈ rest, c < 256 := fun c hc => hbytes c (by simp [hc])
    have hR : bytesToNat rest < 256 ^ 31 := by
      have := bytesToNat_lt rest hrb
      rwa [hrest] at this
    have hcons : bytesToNat (b0 :: rest) = b0 * 256 ^ 31 + bytesToNat rest := by
      rw [bytesToNat_cons, hrest]
    have hiff : 128 ≤ b0 ↔ 2 ^ 255 ≤ bytesToNat (b0 :: rest) := by
      rw [hcons, show (2 : Nat) ^ 255 = 128 * 256 ^ 31 by norm_num]
      exact digit_top_iff b0 (bytesToNat rest) (256 ^ 31) hR
    have hu256 : bytesToNat (b0 :: rest) < 2 ^ 256 := by
      have := bytesToNat_lt (b0 :: rest) hbytes
      rw [hlen32] at this
      calc bytesToNat (b0 :: rest) < 256 ^ 32 := this
        _ = 2 ^ 256 := by norm_num
    have hround : from_int ((Int256.unsigned ⟨b0 :: rest⟩ : Nat) : Int) =
        .ok ⟨b0 :: rest⟩ := by
      unfold from_int
      rw [if_pos ⟨Int.natCast_nonneg _, by exact_mod_cast hu256⟩]
      have ht : ((Int256.unsigned ⟨b0 :: rest⟩ : Nat) : Int).toNat =
          bytesToNat (b0 :: rest) := by
        simp [Int256.unsigned]
      rw [ht, show (32 : Nat) = (b0 :: rest).length from hlen32.symm,
        natToBytesBE_bytesToNat _ hbytes]
    simp only [Int256.signed, Int256.unsigned] at *
    by_cases hcase : 128 ≤ b0
    · rw [if_pos (by simpa using hcase), hlen32, show 8 * 32 = 256 from rfl]
      refine ⟨?_, ?_, hround⟩
      · exact Int.modEq_iff_dvd.mpr ⟨1, by ring⟩
      · exact iff_of_true rfl (hiff.mp hcase)
    · rw [if_neg (by simpa using hcase)]
      have hpos : (0 : Int) < 2 ^ 256 := by positivity
      refine ⟨?_, ?_, hround⟩
      · simp [Int.ModEq]
      · exact iff_of_false (by omega) (fun h => hcase (hiff.mpr h))

/-- C10 witness: the theorem applied at the concrete well-formed word 0. -/
theorem C10_witness :
    Int256.Wf (word 0) ∧
    (Int.ModEq (2 ^ 256) (word 0).signed ((word 0).unsigned : Int) ∧
     ((word 0).signed = ((word 0).unsigned : Int) - 2 ^ 256 ↔ 2 ^ 255 ≤ (word 0).unsigned) ∧
     from_int ((word 0).unsigned : Int) = .ok (word 0)) :=
  ⟨by decide, C10_word_views (word 0) (by decide)⟩

/-! ### C9: monotonicity of the active-words counter -/

/-- Two-operand handlers leave `i` and the memory unchanged. -/
theorem pres_binOp (f : Int256 → Int256 → Except Fault Int256) (st st' : MachineState)
    (h : EVM.binOp f st = .ok st') : st.i ≤ st'.i ∧ st'.m = st.m := by
  unfold EVM.binOp at h
  split at h
  · split at h
    · injection h with h; subst h; exact ⟨le_refl _, rfl⟩
    · simp at h
  · simp at h

/-- One-operand handlers leave `i` and the memory unchanged. -/
theorem pres_unOp (f : Int256 → Except Fault Int256) (st st' : MachineState)
    (h : EVM.unOp f st = .ok st') : st.i ≤ st'.i ∧ st'.m = st.m := by
  unfold EVM.unOp at h
  split at h
  · split at h
    · injection h with h; subst h; exact ⟨le_refl _, rfl⟩
    · simp at h
  · simp at h

/-- Three-operand handlers leave `i` and the memory unchanged. -/
theorem pres_ternOp (f : Int256 → Int256 → Int256 → Except Fault Int256)
    (st st' : MachineState) (h : EVM.ternOp f st = .ok st') :
    st.i ≤ st'.i ∧ st'.m = st.m := by
  unfold EVM.ternOp at h
  split at h
  · split at h
    · injection h with h; subst h; exact ⟨le_refl _, rfl⟩
    · simp at h
  · simp at h

/-- `POP` leaves `i` and the memory unchanged. -/
theorem pres_pop (st st' : MachineState) (h : EVM.pop st = .ok st') :
    st.i ≤ st'.i ∧ st'.m = st.m := by
  unfold EVM.pop at h
  split at h
  · simp at h
  · injection h with h; subst h; exact ⟨le_refl _, rfl⟩

/-- `MLOAD` can only grow `i` (to a `max`) and leaves the memory values
unchanged. -/
theorem pres_mload (st st' : MachineState) (h : EVM.mload st = .ok st') :
    st.i ≤ st'.i ∧ st'.m = st.m := by
  unfold EVM.mload at h
  split at h
  · simp at h
  · injection h with h; subst h; exact ⟨le_max_left _ _, rfl⟩

/-- `JUMP` leaves `i` and the memory unchanged. -/
theorem pres_jump (st st' : MachineState) (h : EVM.jump st = .ok st') :
    st.i ≤ st'.i ∧ st'.m = st.m := by
  unfold EVM.jump at h
  split at h
  · simp at h
  · split at h
    · simp at h
    · split at h
      · simp at h
      · injection h with h; subst h; exact ⟨le_refl _, rfl⟩

/-- `JUMPI` leaves `i` and the memory unchanged. -/
theorem pres_jumpi (st st' : MachineState) (h : EVM.jumpi st = .ok st') :
    st.i ≤ st'.i ∧ st'.m = st.m := by
  unfold EVM.jumpi at h
  split at h
  · simp at h
  · split at h
    · simp at h
    · split at h
      · simp at h
      · split at h
        · simp at h
        · split at h
          · injection h with h; subst h; exact ⟨le_refl _, rfl⟩
          · injection h with h; subst h; exact ⟨le_refl _, rfl⟩

/-- Word-pushing handlers (`PC`, `MSIZE`, `GAS`) leave `i` and the memory
unchanged. -/
theorem pres_pushOp (v : Except Fault Int256) (st st' : MachineState)
    (h : EVM.pushOp v st = .ok st') : st.i ≤ st'.i ∧ st'.m = st.m := by
  unfold EVM.pushOp at h
  split at h
  · injection h with h; subst h; exact ⟨le_refl _, rfl⟩
  · simp at h

/-- `JUMPDEST` leaves `i` and the memory unchanged. -/
theorem pres_jumpdest (st st' : MachineState) (h : EVM.jumpdest st = .ok st') :
    st.i ≤ st'.i ∧ st'.m = st.m := by
  unfold EVM.jumpdest at h
  injection h with h; subst h; exact ⟨le_refl _, rfl⟩

/-- `PUSHn` leaves `i` and the memory unchanged. -/
theorem pres_push (n : Nat) (st st' : MachineState)
    (h : EVM.push_n n st = .ok st') : st.i ≤ st'.i ∧ st'.m = st.m := by
  unfold EVM.push_n at h
  split at h
  · injection h with h; subst h; exact ⟨le_refl _, rfl⟩
  · simp at h

/-- `DUPn` leaves `i` and the memory unchanged. -/
theorem pres_dup (n : Nat) (st st' : MachineState)
    (h : EVM.dup_n n st = .ok st') : st.i ≤ st'.i ∧ st'.m = st.m := by
  unfold EVM.dup_n at h
  split at h
  · injection h with h; subst h; exact ⟨le_refl _, rfl⟩
  · simp at h

/-- `SWAPn` leaves `i` and the memory unchanged. -/
theorem pres_swap (n : Nat) (st st' : MachineState)
    (h : EVM.swap_n n st = .ok st') : st.i ≤ st'.i ∧ st'.m = st.m := by
  unfold EVM.swap_n at h
  split at h
  · injection h with h; subst h; exact ⟨le_refl _, rfl⟩
  all_goals simp at h

/-- `MSTORE` can only grow `i` (to a `max`). -/
theorem imono_mstore (st st' : MachineState) (h : EVM.mstore st = .ok st') :
    st.i ≤ st'.i := by
  unfold EVM.mstore at h
  split at h
  · injection h with h; subst h; exact le_max_left _ _
  · simp at h

/-- `MSTORE8` can only grow `i` (to a `max`). -/
theorem imono_mstore8 (st st' : MachineState) (h : EVM.mstore8 st = .ok st') :
    st.i ≤ st'.i := by
  unfold EVM.mstore8 at h
  split at h
  · injection h with h; subst h; exact le_max_left _ _
  · simp at h

/-- An operation that changes neither `i` nor the memory satisfies the
guarded form of the preservation statement. -/
theorem pres_weaken {st st' : MachineState} {P Q : Prop}
    (h : st.i ≤ st'.i ∧ st'.m = st.m) :
    st.i ≤ st'.i ∧ (P → Q → st'.m = st.m) :=
  ⟨h.1, fun _ _ => h.2⟩

set_option maxHeartbeats 3200000 in
/-- Every successful dispatch leaves `i` no smaller, and every opcode other
than `MSTORE`/`MSTORE8` leaves the memory values unchanged. -/
theorem execute_pres (st : MachineState) (b : Nat) (st' : MachineState)
    (h : EVM.execute st b = .ok st') :
    st.i ≤ st'.i ∧ (b ≠ 0x52 → b ≠ 0x53 → st'.m = st.m) := by
  unfold EVM.execute at h
  cases hM : EVM.INSTRUCTION_MAP b with
  | none => rw [hM] at h; simp at h
  | some f =>
    rw [hM] at h
    replace h : f st = Except.ok st' := h
    unfold EVM.INSTRUCTION_MAP at hM
    by_cases e00 : b = 0x00
    · rw [if_pos e00] at hM
      injection hM with hf
      subst hf
      simp [EVM.stop] at h
    rw [if_neg e00] at hM
    by_cases e01 : b = 0x01
    · rw [if_pos e01] at hM
      injection hM with hf
      subst hf
      exact pres_weaken (pres_binOp Int256.add st st' h)
    rw [if_neg e01] at hM
    by_cases e02 : b = 0x02
    · rw [if_pos e02] at hM
      injection hM with hf
      subst hf
      exact pres_weaken (pres_binOp Int256.mul st st' h)
    rw [if_neg e02] at hM
    by_cases e04 : b = 0x04
    · rw [if_pos e04] at hM
      injection hM with hf
      subst hf
      exact pres_weaken (pres_binOp Int256.div st st' h)
    rw [if_neg e04] at hM
    by_cases e05 : b = 0x05
    · rw [if_pos e05] at hM
      injection hM with hf
      subst hf
      exact pres_weaken (pres_binOp Int256.sdiv st st' h)
    rw [if_neg e05] at hM
    by_cases e06 : b = 0x06
    · rw [if_pos e06] at hM
      injection hM with hf
      subst hf
      exact pres_weaken (pres_binOp Int256.mod st st' h)
    rw [if_neg e06] at hM
    by_cases e07 : b = 0x07
    · rw [if_pos e07] at hM
      injection hM with hf
      subst hf
      exact pres_weaken (pres_binOp Int256.smod st st' h)
    rw [if_neg e07] at hM
    by_cases e08 : b = 0x08
    · rw [if_pos e08] at hM
      injection hM with hf
      subst hf
      exact pres_weaken (pres_ternOp Int256.addmod st st' h)
    rw [if_neg e08] at hM
    by_cases e09 : b = 0x09
    · rw [if_pos e09] at hM
      injection hM with hf
      subst hf
      exact pres_weaken (pres_ternOp Int256.mulmod st st' h)
    rw [if_neg e09] at hM
    by_cases e0a : b = 0x0a
    · rw [if_pos e0a] at hM
      injection hM with hf
      subst hf
      exact pres_weaken (pres_binOp Int256.exp st st' h)
    rw [if_neg e0a] at hM
    by_cases e0b : b = 0x0b
    · rw [if_pos e0b] at hM
      injection hM with hf
      subst hf
      exact pres_weaken (pres_binOp _ st st' h)
    rw [if_neg e0b] at hM
    by_cases e10 : b = 0x10
    · rw [if_pos e10] at hM
      injection hM with hf
      subst hf
      exact pres_weaken (pres_binOp Int256.lt st st' h)
    rw [if_neg e10] at hM
    by_cases e11 : b = 0x11
    · rw [if_pos e11] at hM
      injection hM with hf
      subst hf
      exact pres_weaken (pres_binOp Int256.gt st st' h)
    rw [if_neg e11] at hM
    by_cases e12 : b = 0x12
    · rw [if_pos e12] at hM
      injection hM with hf
      subst hf
      exact pres_weaken (pres_binOp Int256.slt st st' h)
    rw [if_neg e12] at hM
    by_cases e13 : b = 0x13
    · rw [if_pos e13] at hM
      injection hM with hf
      subst hf
      exact pres_weaken (pres_binOp Int256.sgt st st' h)
    rw [if_neg e13] at hM
    by_cases e14 : b = 0x14
    · rw [if_pos e14] at hM
      injection hM with hf
      subst hf
      exact pres_weaken (pres_binOp Int256.eq st st' h)
    rw [if_neg e14] at hM
    by_cases e15 : b = 0x15
    · rw [if_pos e15] at hM
      injection hM with hf
      subst hf
      exact pres_weaken (pres_unOp Int256.iszero st st' h)
    rw [if_neg e15] at hM
    by_cases e16 : b = 0x16
    · rw [if_pos e16] at hM
      injection hM with hf
      subst hf
      exact pres_weaken (pres_binOp Int256.and_ st st' h)
    rw [if_neg e16] at hM
    by_cases e17 : b = 0x17
    · rw [if_pos e17] at hM
      injection hM with hf
      subst hf
      exact pres_weaken (pres_binOp Int256.or_ st st' h)
    rw [if_neg e17] at hM
    by_cases e18 : b = 0x18
    · rw [if_pos e18] at hM
      injection hM with hf
      subst hf
      exact pres_weaken (pres_binOp Int256.xor st st' h)
    rw [if_neg e18] at hM
    by_cases e19 : b = 0x19
    · rw [if_pos e19] at hM
      injection hM with hf
      subst hf
      exact pres_weaken (pres_unOp Int256.not_ st st' h)
    rw [if_neg e19] at hM
    by_cases e1a : b = 0x1a
    · rw [if_pos e1a] at hM
      injection hM with hf
      subst hf
      exact pres_weaken (pres_binOp _ st st' h)
    rw [if_neg e1a] at hM
    by_cases e1b : b = 0x1b
    · rw [if_pos e1b] at hM
      injection hM with hf
      subst hf
      exact pres_weaken (pres_binOp _ st st' h)
    rw [if_neg e1b] at hM
    by_cases e1c : b = 0x1c
    · rw [if_pos e1c] at hM
      injection hM with hf
      subst hf
      exact pres_weaken (pres_binOp _ st st' h)
    rw [if_neg e1c] at hM
    by_cases e1d : b = 0x1d
    · rw [if_pos e1d] at hM
      injection hM with hf
      subst hf
      exact pres_weaken (pres_binOp _ st st' h)
    rw [if_neg e1d] at hM
    by_cases e50 : b = 0x50
    · rw [if_pos e50] at hM
      injection hM with hf
      subst hf
      exact pres_weaken (pres_pop st st' h)
    rw [if_neg e50] at hM
    by_cases e51 : b = 0x51
    · rw [if_pos e51] at hM
      injection hM with hf
      subst hf
      exact pres_weaken (pres_mload st st' h)
    rw [if_neg e51] at hM
    by_cases e52 : b = 0x52
    · rw [if_pos e52] at hM
      injection hM with hf
      subst hf
      exact ⟨imono_mstore st st' h, fun hc _ => absurd e52 hc⟩
    rw [if_neg e52] at hM
    by_cases e53 : b = 0x53
    · rw [if_pos e53] at hM
      injection hM with hf
      subst hf
      exact ⟨imono_mstore8 st st' h, fun _ hc => absurd e53 hc⟩
    rw [if_neg e53] at hM
    by_cases e56 : b = 0x56
    · rw [if_pos e56] at hM
      injection hM with hf
      subst hf
      exact pres_weaken (pres_jump st st' h)
    rw [if_neg e56] at hM
    by_cases e57 : b = 0x57
    · rw [if_pos e57] at hM
      injection hM with hf
      subst hf
      exact pres_weaken (pres_jumpi st st' h)
    rw [if_neg e57] at hM
    by_cases e58 : b = 0x58
    · rw [if_pos e58] at hM
      injection hM with hf
      subst hf
      exact pres_weaken (pres_pushOp _ st st' h)
    rw [if_neg e58] at hM
    by_cases e59 : b = 0x59
    · rw [if_pos e59] at hM
      injection hM with hf
      subst hf
      exact pres_weaken (pres_pushOp _ st st' h)
    rw [if_neg e59] at hM
    by_cases e5a : b = 0x5a
    · rw [if_pos e5a] at hM
      injection hM with hf
      subst hf
      exact pres_weaken (pres_pushOp _ st st' h)
    rw [if_neg e5a] at hM
    by_cases e5b : b = 0x5b
    · rw [if_pos e5b] at hM
      injection hM with hf
      subst hf
      exact pres_weaken (pres_jumpdest st st' h)
    rw [if_neg e5b] at hM
    by_cases epu : 0x60 ≤ b ∧ b ≤ 0x7f
    · rw [if_pos epu] at hM
      injection hM with hf
      subst hf
      exact pres_weaken (pres_push (b - 0x5f) st st' h)
    rw [if_neg epu] at hM
    by_cases edu : 0x80 ≤ b ∧ b ≤ 0x8f
    · rw [if_pos edu] at hM
      injection hM with hf
      subst hf
      exact pres_weaken (pres_dup (b - 0x7f) st st' h)
    rw [if_neg edu] at hM
    by_cases esw : 0x90 ≤ b ∧ b ≤ 0x9f
    · rw [if_pos esw] at hM
      injection hM with hf
      subst hf
      exact pres_weaken (pres_swap (b - 0x8f) st st' h)
    rw [if_neg esw] at hM
    exact Option.noConfusion hM

/-- A fold of single-byte writes leaves every address outside the written
offsets unchanged. -/
theorem foldl_update_outside (off a : Nat) (ps : List (Nat × Nat)) :
    ∀ m : Nat → Nat, (∀ p ∈ ps, off + p.1 ≠ a) →
      ps.foldl (fun acc p => Function.update acc (off + p.1) p.2) m a = m a := by
  induction ps with
  | nil => intro m _; rfl
  | cons p ps ih =>
    intro m hp
    rw [List.foldl_cons, ih _ fun q hq => hp q (List.mem_cons_of_mem _ hq)]
    exact Function.update_noteq (Ne.symm (hp p (List.mem_cons_self _ _))) _ _

/-- `MSTORE8` changes no memory byte other than the one at the popped
offset. -/
theorem mstore8_outside (st : MachineState) (d v : Int256) (s2 : List Int256)
    (st' : MachineState) (hs : st.s = d :: v :: s2) (h : EVM.mstore8 st = .ok st')
    (a : Nat) (ha : a ≠ d.unsigned) : st'.m a = st.m a := by
  unfold EVM.mstore8 at h
  rw [hs] at h
  injection h with h
  subst h
  exact Function.update_noteq ha _ _

/-- `MSTORE` of a 32-byte word changes no memory byte outside
`[offset, offset + 32)`. -/
theorem mstore_outside (st : MachineState) (d v : Int256) (s2 : List Int256)
    (st' : MachineState) (hs : st.s = d :: v :: s2) (hv : v.bytes_value.length = 32)
    (h : EVM.mstore st = .ok st') (a : Nat)
    (ha : a < d.unsigned ∨ d.unsigned + 32 ≤ a) : st'.m a = st.m a := by
  unfold EVM.mstore at h
  rw [hs] at h
  injection h with h
  subst h
  show EVM.write_mem_256 st.m d.unsigned v a = st.m a
  unfold EVM.write_mem_256
  apply foldl_update_outside
  rw [List.forall_mem_enum]
  intro j hj _
  rw [hv] at hj
  omega

/-- C9: the active-words counter is monotonically non-decreasing — every
successfully dispatched opcode leaves `i` greater than or equal to its
previous value (in particular `MLOAD`, `MSTORE` and `MSTORE8`, which grow it
with a `max`) — and growth never removes or zeroes a written memory byte:
every opcode other than `MSTORE`/`MSTORE8` leaves the memory values exactly
unchanged, `MSTORE8` changes no byte besides the one it writes, and `MSTORE`
of a 32-byte word changes no byte outside the 32 offsets it writes. -/
theorem C9_activeWords_monotone :
    (∀ (st : MachineState) (b : Nat) (st' : MachineState),
       EVM.execute st b = .ok st' → st.i ≤ st'.i) ∧
    (∀ (st : MachineState) (b : Nat) (st' : MachineState),
       EVM.execute st b = .ok st' → b ≠ 0x52 → b ≠ 0x53 → st'.m = st.m) ∧
    (∀ (st : MachineState) (d v : Int256) (s2 : List Int256) (st' : MachineState),
       st.s = d :: v :: s2 → EVM.mstore8 st = .ok st' →
       ∀ a, a ≠ d.unsigned → st'.m a = st.m a) ∧
    (∀ (st : MachineState) (d v : Int256) (s2 : List Int256) (st' : MachineState),
       st.s = d :: v :: s2 → v.bytes_value.length = 32 → EVM.mstore st = .ok st' →
       ∀ a, a < d.unsigned ∨ d.unsigned + 32 ≤ a → st'.m a = st.m a) :=
  ⟨fun st b st' h => (execute_pres st b st' h).1,
   fun st b st' h h52 h53 => (execute_pres st b st' h).2 h52 h53,
   fun st d v s2 st' hs h a ha => mstore8_outside st d v s2 st' hs h a ha,
   fun st d v s2 st' hs hv h a ha => mstore_outside st d v s2 st' hs hv h a ha⟩

/-- A state about to run `JUMPDEST`. -/
def c9State : MachineState :=
  { code := [0x5b], gas := 0, pc := 0, m := fun _ => 0, i := 0, s := [] }

/-- The state after the `JUMPDEST` of `c9State`. -/
def c9StateJ : MachineState :=
  { c9State with pc := 1 }

/-- A state about to run `MSTORE8` at offset 33. -/
def c9StateM : MachineState :=
  { code := [0x53], gas := 0, pc := 0, m := fun _ => 0, i := 0, s := [word 33, word 0] }

/-- The state after the `MSTORE8` of `c9StateM`. -/
def c9StateM2 : MachineState :=
  { c9StateM with m := EVM.write_mem_8 c9StateM.m 33 (word 0), s := [], i := 1, pc := 1 }

/-- A state about to run `MSTORE` at offset 33. -/
def c9StateS : MachineState :=
  { code := [0x52], gas := 0, pc := 0, m := fun _ => 0, i := 0, s := [word 33, word 0] }

/-- The state after the `MSTORE` of `c9StateS`. -/
def c9StateS2 : MachineState :=
  { c9StateS with m := EVM.write_mem_256 c9StateS.m 33 (word 0), s := [], i := 2, pc := 1 }

/-- C9 witness: the four conjuncts applied at concrete steps — a `JUMPDEST`
step (counter and memory preserved), an `MSTORE8` at offset 33 (byte 0
untouched) and an `MSTORE` at offset 33 (byte 0 untouched). -/
theorem C9_witness :
    c9State.i ≤ c9StateJ.i ∧ c9StateJ.m = c9State.m ∧
    c9StateM2.m 0 = c9StateM.m 0 ∧ c9StateS2.m 0 = c9StateS.m 0 :=
  ⟨C9_activeWords_monotone.1 c9State 0x5b c9StateJ rfl,
   C9_activeWords_monotone.2.1 c9State 0x5b c9StateJ rfl (by decide) (by decide),
   C9_activeWords_monotone.2.2.1 c9StateM (word 33) (word 0) [] c9StateM2 rfl rfl 0
     (by decide),
   C9_activeWords_monotone.2.2.2 c9StateS (word 33) (word 0) [] c9StateS2 rfl (by decide)
     rfl 0 (Or.inl (by decide))⟩
